import Mathlib

/-!
Verification development for the eZansi Piper TTS capability
(`src/app.py`, `src/hardware_detection.py`).

The Python code is shallowly embedded: pure helpers become Lean
functions, machine integers become `Nat` with explicit bounds where
Python would raise `OverflowError`, filesystem and subprocess effects
become explicit state or function parameters, and fallible code
returns `Option`/`Except`.
-/

/-! ## WAV header construction (`app.py`, `_create_wav_header`)

Python builds the header with `bytearray.extend` and
`int.to_bytes(width, "little")`.  We model a byte string as
`List Nat` (each entry < 256). -/

/-- Little-endian base-256 digits of `n`, `w` bytes wide.  This is the
byte list produced by Python `n.to_bytes(w, "little")` when `n` fits. -/
def toLEBytes : Nat → Nat → List Nat
  | 0, _ => []
  | w + 1, n => n % 256 :: toLEBytes w (n / 256)

/-- Little-endian decoding of a byte list (`int.from_bytes(_, "little")`). -/
def fromLEBytes : List Nat → Nat
  | [] => 0
  | b :: bs => b + 256 * fromLEBytes bs

/-- Python `n.to_bytes(w, "little")`: raises `OverflowError` (here:
`none`) when `n` does not fit in `w` bytes. -/
def int_to_bytes (n w : Nat) : Option (List Nat) :=
  if n < 256 ^ w then some (toLEBytes w n) else none

/-- `_create_wav_header(data_size, sample_rate, bits_per_sample, channels)`
from `app.py`.  The Python defaults are `sample_rate=22050`,
`bits_per_sample=16`, `channels=1`; callers in this file pass them
explicitly.  Byte values: RIFF = [82,73,70,70], WAVE = [87,65,86,69],
"fmt " = [102,109,116,32], data = [100,97,116,97]. -/
def _create_wav_header (data_size sample_rate bits_per_sample channels : Nat) :
    Option (List Nat) :=
  let byte_rate := sample_rate * channels * bits_per_sample / 8
  let block_align := channels * bits_per_sample / 8
  match int_to_bytes (data_size + 36) 4, int_to_bytes 16 4, int_to_bytes 1 2,
      int_to_bytes channels 2, int_to_bytes sample_rate 4, int_to_bytes byte_rate 4,
      int_to_bytes block_align 2, int_to_bytes bits_per_sample 2,
      int_to_bytes data_size 4 with
  | some riffSize, some subSize, some fmtCode, some chB, some srB, some brB,
      some baB, some bpsB, some dsB =>
    some ([82, 73, 70, 70] ++ riffSize ++ [87, 65, 86, 69]
      ++ [102, 109, 116, 32] ++ subSize ++ fmtCode ++ chB ++ srB ++ brB ++ baB ++ bpsB
      ++ [100, 97, 116, 97] ++ dsB)
  | _, _, _, _, _, _, _, _, _ => none

theorem toLEBytes_length (w n : Nat) : (toLEBytes w n).length = w := by
  induction w generalizing n with
  | zero => rfl
  | succ w ih => simp [toLEBytes, ih]

theorem fromLEBytes_toLEBytes (w n : Nat) (h : n < 256 ^ w) :
    fromLEBytes (toLEBytes w n) = n := by
  induction w generalizing n with
  | zero =>
    have : n = 0 := by simpa using h
    simp [this, toLEBytes, fromLEBytes]
  | succ w ih =>
    have hdiv : n / 256 < 256 ^ w := by
      rw [Nat.div_lt_iff_lt_mul (by norm_num)]
      calc n < 256 ^ (w + 1) := h
        _ = 256 ^ w * 256 := by ring
    simp [toLEBytes, fromLEBytes, ih _ hdiv]
    omega

/-- C1: for every PCM payload length `L` with `L + 36 < 2^32`, the
44-byte header has "RIFF" at bytes 0 to 3, `L + 36` little-endian at
bytes 4 to 7, "WAVE" at bytes 8 to 11, "data" at bytes 36 to 39 and `L`
little-endian at bytes 40 to 43; and dropping the first 44 bytes of
`header ++ p` recovers any payload `p`. -/
theorem wav_header_roundtrip (L : Nat) (h : L + 36 < 2 ^ 32) :
    ∃ hd, _create_wav_header L 22050 16 1 = some hd ∧
      hd.length = 44 ∧
      hd.take 4 = [82, 73, 70, 70] ∧
      fromLEBytes ((hd.drop 4).take 4) = L + 36 ∧
      (hd.drop 8).take 4 = [87, 65, 86, 69] ∧
      (hd.drop 36).take 4 = [100, 97, 116, 97] ∧
      fromLEBytes (hd.drop 40) = L ∧
      ∀ p : List Nat, (hd ++ p).drop 44 = p := by
  have h1 : L + 36 < 256 ^ 4 := by norm_num; omega
  have h2 : L < 256 ^ 4 := by norm_num at h1 ⊢; omega
  have r1 : int_to_bytes (L + 36) 4 = some (toLEBytes 4 (L + 36)) := by
    unfold int_to_bytes; rw [if_pos h1]
  have r9 : int_to_bytes L 4 = some (toLEBytes 4 L) := by
    unfold int_to_bytes; rw [if_pos h2]
  refine ⟨[82, 73, 70, 70] ++ toLEBytes 4 (L + 36) ++ [87, 65, 86, 69]
      ++ [102, 109, 116, 32] ++ toLEBytes 4 16 ++ toLEBytes 2 1 ++ toLEBytes 2 1
      ++ toLEBytes 4 22050 ++ toLEBytes 4 44100 ++ toLEBytes 2 2 ++ toLEBytes 2 16
      ++ [100, 97, 116, 97] ++ toLEBytes 4 L, ?_, ?_, ?_, ?_, ?_, ?_, ?_, ?_⟩
  · unfold _create_wav_header
    rw [r1, r9]
    rfl
  all_goals simp [toLEBytes, List.take_succ_cons, List.drop_succ_cons, fromLEBytes]
  · omega
  · omega

/-- Witness for C1 at `L = 0`. -/
theorem wav_header_roundtrip_witness :
    (0 : Nat) + 36 < 2 ^ 32 ∧
      ∃ hd, _create_wav_header 0 22050 16 1 = some hd ∧
        hd.length = 44 ∧
        hd.take 4 = [82, 73, 70, 70] ∧
        fromLEBytes ((hd.drop 4).take 4) = 0 + 36 ∧
        (hd.drop 8).take 4 = [87, 65, 86, 69] ∧
        (hd.drop 36).take 4 = [100, 97, 116, 97] ∧
        fromLEBytes (hd.drop 40) = 0 ∧
        ∀ p : List Nat, (hd ++ p).drop 44 = p :=
  ⟨by norm_num, wav_header_roundtrip 0 (by norm_num)⟩

/-! ## Hardware detection (`hardware_detection.py`)

The OS probes are passed in as explicit inputs: parsed `/proc/meminfo`
values, the `os.cpu_count()` result, and the three accelerator checks. -/

/-- A point-in-time hardware snapshot, as assembled by
`HardwareDetector.detect`. -/
structure HardwareSnapshot where
  architecture : String
  ram_mb : Nat
  cpu_cores : Nat
  gpu_type : String
deriving DecidableEq

/-- `_detect_ram_mb`: prefer `MemAvailable` (kB), fall back to
`MemTotal` (kB), each converted with `// 1024`; if `/proc/meminfo`
cannot be read or parsed, return the fixed fallback 512. -/
def _detect_ram_mb (memAvailableKb memTotalKb : Option Nat) : Nat :=
  match memAvailableKb with
  | some kb => kb / 1024
  | none =>
    match memTotalKb with
    | some kb => kb / 1024
    | none => 512

/-- `_detect_cpu_cores`: `os.cpu_count() or 1` (Python truthiness: both
`None` and `0` yield 1). -/
def _detect_cpu_cores (osCpuCount : Option Nat) : Nat :=
  match osCpuCount with
  | none => 1
  | some n => if n = 0 then 1 else n

/-- `_detect_gpu`: first matching accelerator probe wins, else "none". -/
def _detect_gpu (cuda rocm openvino : Bool) : String :=
  if cuda then "cuda"
  else if rocm then "rocm"
  else if openvino then "openvino"
  else "none"

/-- The dict returned by `get_recommended_resources`. -/
structure ResourceRecommendation where
  ram_mb : Nat
  cpu_cores : Nat
  accelerator : String
  architecture : String
deriving DecidableEq

/-- `HardwareDetector.get_recommended_resources`: with `base_ram = 300`
and `base_cpu = 1`, computes `max(base_ram, min(600, ram // 2))` and
`min(2, max(base_cpu, cores // 2))`, and passes `gpu_type` and
`architecture` through unchanged. -/
def get_recommended_resources (hw : HardwareSnapshot) : ResourceRecommendation where
  ram_mb := max 300 (min 600 (hw.ram_mb / 2))
  cpu_cores := min 2 (max 1 (hw.cpu_cores / 2))
  accelerator := hw.gpu_type
  architecture := hw.architecture

/-- `clamp` as the spec phrases the RAM policy. -/
def clampNat (x lo hi : Nat) : Nat := max lo (min hi x)

/-- C5 counterexample: with reported RAM `R = 0` the recommendation is
300, not the fixed fallback 600 the claim requires for zero RAM; the
same 300 results when RAM detection fails (probe fallback 512). -/
theorem ram_zero_not_600 :
    (get_recommended_resources ⟨"x86_64", 0, 4, "none"⟩).ram_mb = 300 ∧
      (get_recommended_resources
        ⟨"x86_64", _detect_ram_mb none none, 4, "none"⟩).ram_mb = 300 ∧
      (300 : Nat) ≠ 600 := by
  decide

/-- C5 (amended): the recommended `ram_mb` is always within
`[300, 600]` and equals `clamp(R/2, 300, 600)` for every reported
`R ≥ 0`; in particular it is 300 (not 600) when `R = 0`, and when RAM
detection fails the probe reports 512 so the recommendation is again
300. -/
theorem ram_recommendation_clamped (hw : HardwareSnapshot) :
    300 ≤ (get_recommended_resources hw).ram_mb ∧
      (get_recommended_resources hw).ram_mb ≤ 600 ∧
      (get_recommended_resources hw).ram_mb = clampNat (hw.ram_mb / 2) 300 600 ∧
      (hw.ram_mb = 0 → (get_recommended_resources hw).ram_mb = 300) ∧
      (hw.ram_mb = _detect_ram_mb none none →
        (get_recommended_resources hw).ram_mb = 300) := by
  refine ⟨?_, ?_, rfl, ?_, ?_⟩
  · simp [get_recommended_resources]
  · simp [get_recommended_resources]
    try omega
  · intro h
    simp [get_recommended_resources, h]
  · intro h
    simp [get_recommended_resources, _detect_ram_mb] at h ⊢
    try omega

/-- Witness for C5 at a snapshot with 0 MB RAM. -/
theorem ram_recommendation_clamped_witness :
    (get_recommended_resources ⟨"a", 0, 1, "none"⟩).ram_mb = 300 :=
  (ram_recommendation_clamped ⟨"a", 0, 1, "none"⟩).2.2.2.1 rfl

/-- C6 counterexample: at `C = 3` detected cores the recommendation is
1, not 2 as the claim states for every `C > 2`. -/
theorem cpu_three_gives_one :
    (get_recommended_resources ⟨"x86_64", 1024, 3, "none"⟩).cpu_cores = 1 ∧
      (1 : Nat) ≠ 2 := by
  decide

/-- C6 (amended): for every detected core count `C ≥ 1` the
recommended `cpu_cores` is 1 when `C ≤ 3` and 2 when `C ≥ 4`
(the code computes `min(2, max(1, C // 2))`, so the boundary sits at
4 cores, not 3). -/
theorem cpu_recommendation_policy (hw : HardwareSnapshot) (h : 1 ≤ hw.cpu_cores) :
    (hw.cpu_cores ≤ 3 → (get_recommended_resources hw).cpu_cores = 1) ∧
      (4 ≤ hw.cpu_cores → (get_recommended_resources hw).cpu_cores = 2) := by
  constructor <;> intro hc <;> simp [get_recommended_resources] <;> omega

/-- Witness for C6 at 1 and 4 cores. -/
theorem cpu_recommendation_policy_witness :
    (get_recommended_resources ⟨"a", 0, 1, "none"⟩).cpu_cores = 1 ∧
      (get_recommended_resources ⟨"a", 0, 4, "none"⟩).cpu_cores = 2 :=
  ⟨(cpu_recommendation_policy ⟨"a", 0, 1, "none"⟩ (by decide)).1 (by decide),
   (cpu_recommendation_policy ⟨"a", 0, 4, "none"⟩ (by decide)).2 (by decide)⟩

/-- C7 counterexample: a detected "rocm" accelerator is passed through
verbatim into the recommendation, not reported as "none". -/
theorem rocm_passes_through :
    (get_recommended_resources
      ⟨"x86_64", 1024, 4, _detect_gpu false true false⟩).accelerator = "rocm" ∧
      "rocm" ≠ "none" := by
  constructor
  · rfl
  · decide

/-- C7 (amended): the recommendation's accelerator field is the
detected accelerator kind verbatim: "cuda" exactly when the CUDA probe
succeeds, but "rocm" and "openvino" also pass through (they are not
masked to "none"); "none" is reported exactly when all three probes
fail. -/
theorem accelerator_passthrough (a : String) (R C : Nat) (cu ro ov : Bool) :
    (get_recommended_resources ⟨a, R, C, _detect_gpu cu ro ov⟩).accelerator
        = _detect_gpu cu ro ov ∧
      ((get_recommended_resources ⟨a, R, C, _detect_gpu cu ro ov⟩).accelerator
          = "cuda" ↔ cu = true) ∧
      ((get_recommended_resources ⟨a, R, C, _detect_gpu cu ro ov⟩).accelerator
          = "rocm" ↔ cu = false ∧ ro = true) ∧
      ((get_recommended_resources ⟨a, R, C, _detect_gpu cu ro ov⟩).accelerator
          = "openvino" ↔ cu = false ∧ ro = false ∧ ov = true) ∧
      ((get_recommended_resources ⟨a, R, C, _detect_gpu cu ro ov⟩).accelerator
          = "none" ↔ cu = false ∧ ro = false ∧ ov = false) := by
  cases cu <;> cases ro <;> cases ov <;>
    simp [get_recommended_resources, _detect_gpu]

/-! ## Voice resolution (`app.py`, `_resolve_piper_voice`)

The resolver consults the catalog produced by `_discover_piper_voices`;
here the catalog, together with the configured default paths
(`PIPER_MODEL_PATH` / `PIPER_CONFIG_PATH`), is passed in explicitly.
Paths are abstract strings at this interface. -/

/-- A catalog entry as the resolver sees it (the `id`, `model_path` and
`config_path` fields of a discovered `VoiceInfo`). -/
structure VoiceInfo where
  id : String
  model_path : String
  config_path : String
deriving DecidableEq

/-- `_resolve_piper_voice(voice_id)`.  Python guards with
`if not voice_id:`, which is true for both `None` and the empty
string; then scans the discovered voices for the first exact id match;
otherwise raises `HTTPException(404, ...)`, modelled as `Except.error`
carrying the detail string. -/
def _resolve_piper_voice (defaultModel defaultConfig : String)
    (catalog : List VoiceInfo) : Option String → Except String (String × String)
  | none => Except.ok (defaultModel, defaultConfig)
  | some v =>
    if v = "" then Except.ok (defaultModel, defaultConfig)
    else
      match catalog.find? (fun w => w.id == v) with
      | some w => Except.ok (w.model_path, w.config_path)
      | none =>
        Except.error ("Unknown voice '" ++ v ++ "'. See GET /voices")

theorem find_of_mem_nodup {cat : List VoiceInfo} {w : VoiceInfo} {v : String}
    (hn : (cat.map VoiceInfo.id).Nodup) (hw : w ∈ cat) (hid : w.id = v) :
    cat.find? (fun u => u.id == v) = some w := by
  induction cat with
  | nil => cases hw
  | cons a cat ih =>
    rw [List.map_cons, List.nodup_cons] at hn
    rcases List.mem_cons.mp hw with rfl | hmem
    · simp [List.find?, hid]
    · have hne : ¬(a.id == v) = true := by
        simp only [beq_iff_eq]
        intro he
        exact hn.1 (he ▸ hid ▸ List.mem_map_of_mem VoiceInfo.id hmem)
      simp only [List.find?, hne]
      exact ih hn.2 hmem

/-- C2 counterexample: the empty string is a non-None voice id matching
no catalog entry (the catalog here is empty), yet resolution succeeds
with the default paths instead of failing with NotFound, because the
Python guard `if not voice_id:` also fires on `""`. -/
theorem resolve_empty_id_not_notfound :
    _resolve_piper_voice "M" "C" [] (some "") = Except.ok ("M", "C") := by
  rfl

/-- C2 (amended): for every catalog with distinct ids and every
non-None, non-empty voice id `v`: if some entry has id `v`, resolution
returns exactly that entry's paths; if no entry has id `v`, it fails
with a 404 NotFound error naming `v`; and resolving `None` returns the
configured default paths regardless of the catalog.  (The original
claim also covered `v = ""`, but the code treats the empty string like
an absent id.) -/
theorem resolve_voice_exact_match (dm dc : String) (cat : List VoiceInfo)
    (v : String) (hv : v ≠ "") (hn : (cat.map VoiceInfo.id).Nodup) :
    (∀ w ∈ cat, w.id = v →
        _resolve_piper_voice dm dc cat (some v) = Except.ok (w.model_path, w.config_path)) ∧
      ((∀ w ∈ cat, w.id ≠ v) →
        _resolve_piper_voice dm dc cat (some v) =
          Except.error ("Unknown voice '" ++ v ++ "'. See GET /voices")) ∧
      _resolve_piper_voice dm dc cat none = Except.ok (dm, dc) := by
  refine ⟨?_, ?_, rfl⟩
  · intro w hw hid
    simp only [_resolve_piper_voice, if_neg hv]
    rw [find_of_mem_nodup hn hw hid]
  · intro hno
    have hfind : cat.find? (fun u => u.id == v) = none := by
      rw [List.find?_eq_none]
      intro u hu
      simpa using hno u hu
    simp only [_resolve_piper_voice, if_neg hv]
    rw [hfind]

/-- Witness for C2 on a one-entry catalog: the present id resolves to
that entry's paths, an absent id yields the NotFound error. -/
theorem resolve_voice_exact_match_witness :
    _resolve_piper_voice "M" "C" [⟨"en/amy", "/models/en/amy.onnx", "/models/en/amy.onnx.json"⟩]
        (some "en/amy") = Except.ok ("/models/en/amy.onnx", "/models/en/amy.onnx.json") ∧
      _resolve_piper_voice "M" "C" [⟨"en/amy", "/models/en/amy.onnx", "/models/en/amy.onnx.json"⟩]
        (some "nope") =
        Except.error ("Unknown voice 'nope'. See GET /voices") :=
  ⟨(resolve_voice_exact_match "M" "C" _ "en/amy" (by decide) (by decide)).1
      ⟨"en/amy", "/models/en/amy.onnx", "/models/en/amy.onnx.json"⟩ (by decide) rfl,
   (resolve_voice_exact_match "M" "C" _ "nope" (by decide) (by decide)).2.1
      (by decide)⟩

/-- C10: resolving the empty-string voice id behaves exactly like an
absent id: for every catalog and defaults it returns the configured
default model/config paths and never fails. -/
theorem resolve_empty_like_none (dm dc : String) (cat : List VoiceInfo) :
    _resolve_piper_voice dm dc cat (some "") = Except.ok (dm, dc) ∧
      _resolve_piper_voice dm dc cat (some "") = _resolve_piper_voice dm dc cat none := by
  constructor <;> rfl


/-! ## Default-asset acquisition (`app.py`, `_download_to_path` and the
exception handler of `_maybe_auto_download_default_piper_model`)

The network read is abstracted to the downloaded byte string; MD5 is an
abstract digest function parameter.  The filesystem state tracked is
the content at the final destination path and at the temporary path. -/

/-- Python `str.lower()` as used on hexadecimal MD5 digests: ASCII
lower-casing, character by character. -/
def pyLower (s : String) : String := String.mk (s.data.map Char.toLower)

/-- The filesystem state seen by one `_download_to_path` call: contents
at the final destination (`none` = absent) and at the temporary file. -/
structure DlState where
  dest : Option (List Nat)
  tmp : Option (List Nat)
deriving DecidableEq

/-- The `DefaultModelDownloadStatus` dataclass. -/
structure DefaultModelDownloadStatus where
  enabled : Bool
  voice_id : String
  state : String
  error : Option String
deriving DecidableEq

/-- `_download_to_path(url, dest, expected_md5)`: stream the body to a
temporary file while computing its MD5; on a checksum mismatch
(case-insensitive; Python `if expected_md5 and ...:` skips the check
for `None` and for the empty string) unlink the temporary file and
raise `ValueError` (here `Except.error` with the message), leaving the
destination untouched; otherwise `shutil.move` the temporary file onto
the destination. -/
def _download_to_path (md5 : List Nat → String) (url : String)
    (expected_md5 : Option String) (data : List Nat) (s : DlState) :
    Except String Unit × DlState :=
  let s1 : DlState := { s with tmp := some data }
  let actual_md5 := md5 data
  let mismatch : Bool :=
    match expected_md5 with
    | none => false
    | some e => (e != "") && (pyLower actual_md5 != pyLower e)
  if mismatch then
    (Except.error ("MD5 mismatch for " ++ url ++ ": expected "
        ++ expected_md5.getD "" ++ " got " ++ actual_md5),
      { s1 with tmp := none })
  else
    (Except.ok (), { s1 with dest := some data, tmp := none })

/-- The `except (..., ValueError, ...)` arm of
`_maybe_auto_download_default_piper_model`: record `state = "failed"`
and `error = str(e)` in the shared status. -/
def acquirer_on_exception (st : DefaultModelDownloadStatus) (msg : String) :
    DefaultModelDownloadStatus :=
  { st with state := "failed", error := some msg }

/-- One download step as run by the acquirer: on a raised error the
status transitions to failed with the exception text. -/
def acquire_download_step (md5 : List Nat → String) (url : String)
    (expected_md5 : Option String) (data : List Nat) (s : DlState)
    (st : DefaultModelDownloadStatus) : DlState × DefaultModelDownloadStatus :=
  match _download_to_path md5 url expected_md5 data s with
  | (Except.error e, s2) => (s2, acquirer_on_exception st e)
  | (Except.ok _, s2) => (s2, st)

/-- C4: whenever an expected checksum is provided (non-empty) and the
computed checksum of the downloaded bytes differs from it
case-insensitively, the destination path is left unchanged, the
temporary file is removed, and the acquirer's status becomes "failed"
with a non-empty error message. -/
theorem checksum_mismatch_leaves_no_file (md5 : List Nat → String)
    (url e : String) (data : List Nat) (s : DlState)
    (st : DefaultModelDownloadStatus)
    (he : e ≠ "") (hmm : pyLower (md5 data) ≠ pyLower e) :
    (acquire_download_step md5 url (some e) data s st).1.dest = s.dest ∧
      (acquire_download_step md5 url (some e) data s st).1.tmp = none ∧
      (acquire_download_step md5 url (some e) data s st).2.state = "failed" ∧
      ∃ msg, (acquire_download_step md5 url (some e) data s st).2.error = some msg ∧
        msg ≠ "" := by
  have hb : ((e != "") && (pyLower (md5 data) != pyLower e)) = true := by
    simp [bne_iff_ne, he, hmm]
  simp only [acquire_download_step, _download_to_path, hb, if_true, acquirer_on_exception]
  refine ⟨trivial, trivial, trivial,
    "MD5 mismatch for " ++ url ++ ": expected " ++ e ++ " got " ++ md5 data, rfl, ?_⟩
  intro hcontra
  have hlen : ("MD5 mismatch for " ++ url ++ ": expected " ++ e ++ " got "
      ++ md5 data).length = 0 := by
    rw [hcontra]; rfl
  simp [String.length_append] at hlen
  exact absurd hlen.1.1.1.1.1 (by decide)

/-- Witness for C4: a concrete digest function and mismatching expected
checksum; the destination stays absent, the temp file is gone, the
status is failed with a non-empty message. -/
theorem checksum_mismatch_leaves_no_file_witness :
    (acquire_download_step (fun _ => "0a") "u" (some "ff") [1, 2]
        ⟨none, none⟩ ⟨true, "v", "in_progress", none⟩).1.dest = none ∧
      (acquire_download_step (fun _ => "0a") "u" (some "ff") [1, 2]
        ⟨none, none⟩ ⟨true, "v", "in_progress", none⟩).1.tmp = none ∧
      (acquire_download_step (fun _ => "0a") "u" (some "ff") [1, 2]
        ⟨none, none⟩ ⟨true, "v", "in_progress", none⟩).2.state = "failed" ∧
      ∃ msg, (acquire_download_step (fun _ => "0a") "u" (some "ff") [1, 2]
        ⟨none, none⟩ ⟨true, "v", "in_progress", none⟩).2.error = some msg ∧ msg ≠ "" :=
  checksum_mismatch_leaves_no_file (fun _ => "0a") "u" "ff" [1, 2]
    ⟨none, none⟩ ⟨true, "v", "in_progress", none⟩ (by decide) (by decide)

/-! ## Voice discovery (`app.py`, `_discover_piper_voices`)

The directory tree under the models root is modelled as the list of its
regular files, each given as a path relative to the root: directory
components plus a filename.  `sorted()` on `pathlib` paths compares
their part tuples, strings by code point.  `rglob("*.onnx")` matches a
filename iff it ends in ".onnx" (fnmatch; dotfiles are matched too),
and `PurePath.with_suffix("")` drops `name[i:]` where `i` is the index
of the last dot, only when `0 < i < len(name) - 1`. -/

/-- A path relative to the models root: `PurePath.parts` split into the
directory components and the filename. -/
structure RelPath where
  dirs : List (List Char)
  name : List Char
deriving DecidableEq

/-- The part tuple Python compares when sorting paths. -/
def RelPath.parts (p : RelPath) : List (List Char) := p.dirs ++ [p.name]

/-- Python `<` on characters: code-point order. -/
def charLt (a b : Char) : Bool := decide (a < b)

/-- Strict lexicographic comparison of sequences, as Python compares
tuples and strings. -/
def lexLt {α : Type} (lt : α → α → Bool) : List α → List α → Bool
  | [], [] => false
  | [], _ :: _ => true
  | _ :: _, [] => false
  | a :: as, b :: bs => if lt a b then true else if lt b a then false else lexLt lt as bs

/-- Non-strict lexicographic comparison. -/
def lexLe {α : Type} (lt : α → α → Bool) : List α → List α → Bool
  | [], _ => true
  | _ :: _, [] => false
  | a :: as, b :: bs => if lt a b then true else if lt b a then false else lexLe lt as bs

/-- Python `<` on strings. -/
def strLt (a b : List Char) : Bool := lexLt charLt a b

/-- The path ordering used by `sorted(models_dir.rglob("*.onnx"))`. -/
def pathLe (a b : RelPath) : Prop := lexLe strLt a.parts b.parts = true

instance : DecidableRel pathLe := fun a b => Bool.decEq (lexLe strLt a.parts b.parts) true

theorem lexLe_total {α : Type} (lt : α → α → Bool) :
    ∀ a b : List α, lexLe lt a b = true ∨ lexLe lt b a = true := by
  intro a
  induction a with
  | nil => intro b; left; rfl
  | cons x xs ih =>
    intro b
    cases b with
    | nil => right; rfl
    | cons y ys =>
      by_cases hxy : lt x y = true
      · left; simp [lexLe, hxy]
      · by_cases hyx : lt y x = true
        · right; simp [lexLe, hyx]
        · rcases ih ys with h | h
          · left; simp [lexLe, hxy, hyx, h]
          · right; simp [lexLe, hxy, hyx, h]

theorem strLt_incomp_eq :
    ∀ a b : List Char, strLt a b = false → strLt b a = false → a = b := by
  intro a
  induction a with
  | nil =>
    intro b h1 _
    cases b with
    | nil => rfl
    | cons y ys => simp [strLt, lexLt] at h1
  | cons x xs ih =>
    intro b h1 h2
    cases b with
    | nil => simp [strLt, lexLt] at h2
    | cons y ys =>
      by_cases hxy : charLt x y = true
      · simp [strLt, lexLt, hxy] at h1
      · by_cases hyx : charLt y x = true
        · simp [strLt, lexLt, hyx] at h2
        · have hx : x = y := by
            have h1c : ¬ x < y := by simpa [charLt] using hxy
            have h2c : ¬ y < x := by simpa [charLt] using hyx
            exact le_antisymm (not_lt.mp h2c) (not_lt.mp h1c)
          subst hx
          simp only [strLt, lexLt, hxy, if_neg, if_false] at h1 h2
          rw [ih ys h1 h2]

theorem strLt_irrefl (a : List Char) : strLt a a = false := by
  induction a with
  | nil => rfl
  | cons x xs ih => simp [strLt, lexLt, charLt, ih] at ih ⊢; exact ih

theorem strLt_trans :
    ∀ a b c : List Char, strLt a b = true → strLt b c = true → strLt a c = true := by
  intro a
  induction a with
  | nil =>
    intro b c h1 h2
    cases b with
    | nil => exact h2
    | cons y ys =>
      cases c with
      | nil => simp [strLt, lexLt] at h2
      | cons z zs => rfl
  | cons x xs ih =>
    intro b c h1 h2
    cases b with
    | nil => simp [strLt, lexLt] at h1
    | cons y ys =>
      cases c with
      | nil => simp [strLt, lexLt] at h2
      | cons z zs =>
        by_cases hxy : charLt x y = true
        · have hxyl : x < y := by simpa [charLt] using hxy
          by_cases hyz : charLt y z = true
          · have hyzl : y < z := by simpa [charLt] using hyz
            have : charLt x z = true := by simp [charLt]; exact lt_trans hxyl hyzl
            simp [strLt, lexLt, this]
          · by_cases hzy : charLt z y = true
            · simp [strLt, lexLt, hyz, hzy] at h2
            · have hyzc : y = z := by
                have h1c : ¬ y < z := by simpa [charLt] using hyz
                have h2c : ¬ z < y := by simpa [charLt] using hzy
                exact le_antisymm (not_lt.mp h2c) (not_lt.mp h1c)
              subst hyzc
              simp [strLt, lexLt, hxy]
        · by_cases hyx : charLt y x = true
          · simp [strLt, lexLt, hxy, hyx] at h1
          · have hxyc : x = y := by
              have h1c : ¬ x < y := by simpa [charLt] using hxy
              have h2c : ¬ y < x := by simpa [charLt] using hyx
              exact le_antisymm (not_lt.mp h2c) (not_lt.mp h1c)
            subst hxyc
            simp only [strLt, lexLt, hxy, if_neg, if_false] at h1
            by_cases hyz : charLt x z = true
            · simp [strLt, lexLt, hyz]
            · by_cases hzy : charLt z x = true
              · simp [strLt, lexLt, hyz, hzy] at h2
              · simp only [strLt, lexLt, hyz, hzy, if_neg, if_false] at h2 ⊢
                exact ih ys zs h1 h2

theorem lexLe_strLt_trans :
    ∀ a b c : List (List Char),
      lexLe strLt a b = true → lexLe strLt b c = true → lexLe strLt a c = true := by
  intro a
  induction a with
  | nil => intro b c _ _; rfl
  | cons x xs ih =>
    intro b c h1 h2
    cases b with
    | nil => simp [lexLe] at h1
    | cons y ys =>
      cases c with
      | nil => simp [lexLe] at h2
      | cons z zs =>
        by_cases hxy : strLt x y = true
        · by_cases hyz : strLt y z = true
          · have := strLt_trans x y z hxy hyz
            simp [lexLe, this]
          · by_cases hzy : strLt z y = true
            · simp [lexLe, hyz, hzy] at h2
            · have : y = z :=
                strLt_incomp_eq y z (Bool.eq_false_iff.mpr hyz) (Bool.eq_false_iff.mpr hzy)
              subst this
              simp [lexLe, hxy]
        · by_cases hyx : strLt y x = true
          · simp [lexLe, hxy, hyx] at h1
          · have : x = y :=
              strLt_incomp_eq x y (Bool.eq_false_iff.mpr hxy) (Bool.eq_false_iff.mpr hyx)
            subst this
            simp only [lexLe, hxy, if_neg, if_false] at h1
            by_cases hxz : strLt x z = true
            · simp [lexLe, hxz]
            · by_cases hzx : strLt z x = true
              · simp [lexLe, hxz, hzx] at h2
              · simp only [lexLe, hxz, hzx, if_neg, if_false] at h2 ⊢
                exact ih ys zs h1 h2

instance : IsTotal RelPath pathLe :=
  ⟨fun a b => lexLe_total strLt a.parts b.parts⟩

instance : IsTrans RelPath pathLe :=
  ⟨fun a b c h1 h2 => lexLe_strLt_trans a.parts b.parts c.parts h1 h2⟩

/-- Index of the last "." in a filename (Python `str.rfind(".")`),
`none` when there is no dot. -/
def lastDotIdx : List Char → Option Nat
  | [] => none
  | c :: cs =>
    match lastDotIdx cs with
    | some i => some (i + 1)
    | none => if c = '.' then some 0 else none

/-- `PurePath.with_suffix("")` applied to a filename: pathlib takes the
suffix to be `name[i:]` for `i` the last dot index when
`0 < i < len(name) - 1`, and the empty suffix otherwise (so a leading
dot or a trailing dot is not a suffix), then removes it. -/
def withSuffixEmpty (name : List Char) : List Char :=
  match lastDotIdx name with
  | some i => if 0 < i ∧ i + 1 < name.length then name.take i else name
  | none => name

/-- `fnmatch` of a filename against `"*.onnx"`: the name ends in
".onnx". -/
def matchesOnnx (name : List Char) : Bool :=
  decide (5 ≤ name.length) && (name.drop (name.length - 5) == ".onnx".data)

/-- The adjacent configuration artifact:
`model_path.with_suffix(model_path.suffix + ".json")` re-appends the
old suffix, which for every filename amounts to appending ".json". -/
def configOf (p : RelPath) : RelPath := ⟨p.dirs, p.name ++ ".json".data⟩

/-- A discovered `VoiceInfo` for the neural engine: `id` is the
relative path with the pathlib suffix stripped (Python stringifies it;
we keep it as a path), `ready` iff model and config files both exist. -/
structure PVoice where
  id : RelPath
  model_path : RelPath
  config_path : RelPath
  ready : Bool
deriving DecidableEq

/-- `_discover_piper_voices(models_dir)`: every `*.onnx` regular file
under the root is a voice; the files are sorted by path; `ready`
re-checks the model file and checks the adjacent config file. -/
def _discover_piper_voices (fs : List RelPath) : List PVoice :=
  (List.insertionSort pathLe (fs.filter (fun p => matchesOnnx p.name))).map
    (fun p =>
      { id := ⟨p.dirs, withSuffixEmpty p.name⟩,
        model_path := p,
        config_path := configOf p,
        ready := decide (p ∈ fs) && decide (configOf p ∈ fs) })

theorem lastDotIdx_append_onnx (s : List Char) :
    lastDotIdx (s ++ ".onnx".data) = some s.length := by
  induction s with
  | nil => decide
  | cons c s ih => simp [lastDotIdx, ih]

/-- On names matching `*.onnx`, pathlib suffix stripping removes the
last five characters exactly when the stem is non-empty; the dotfile
".onnx" is left unchanged. -/
theorem withSuffixEmpty_onnx (n : List Char) (h : matchesOnnx n = true) :
    withSuffixEmpty n = if n = ".onnx".data then n else n.take (n.length - 5) := by
  have h5 : 5 ≤ n.length ∧ n.drop (n.length - 5) = ".onnx".data := by
    simpa [matchesOnnx] using h
  have hn : n = n.take (n.length - 5) ++ ".onnx".data := by
    conv_lhs => rw [← List.take_append_drop (n.length - 5) n]
    rw [h5.2]
  have hlen : (n.take (n.length - 5)).length = n.length - 5 := by
    simp
  rcases hs : n.take (n.length - 5) with _ | ⟨c, s⟩
  · have hid : n = ".onnx".data := by rw [hn, hs]; rfl
    rw [hid]
    decide
  · have hne : n ≠ ".onnx".data := by
      intro he
      have : n.length = 5 := by rw [he]; rfl
      rw [this] at hs
      simp at hs
    rw [if_neg hne]
    conv_lhs => rw [withSuffixEmpty, hn, hs]
    rw [lastDotIdx_append_onnx (c :: s)]
    have hcond : 0 < (c :: s).length ∧ (c :: s).length + 1 < ((c :: s) ++ ".onnx".data).length := by
      constructor
      · simp
      · simp
    show (if 0 < (c :: s).length ∧ (c :: s).length + 1 < ((c :: s) ++ ".onnx".data).length
        then List.take (c :: s).length ((c :: s) ++ ".onnx".data)
        else ((c :: s) ++ ".onnx".data)) = c :: s
    rw [if_pos hcond, List.take_left]

theorem filter_length_split {α : Type} (l : List α) (p q : α → Bool) :
    (l.filter p).length
      = (l.filter (fun x => p x && q x)).length
        + (l.filter (fun x => p x && !q x)).length := by
  induction l with
  | nil => rfl
  | cons a l ih =>
    cases hp : p a <;> cases hq : q a <;>
      simp [List.filter_cons, hp, hq, ih] <;> omega

/-- C3 (amended): for every directory tree (given as its list of
regular files), `_discover_piper_voices` returns one descriptor per
`*.onnx` file - N with an adjacent config file plus M without - in
lexicographic order of their paths (part tuples); each descriptor's
`ready` is true iff its config file exists, and its id is the relative
path with the trailing ".onnx" stripped, except that a file named
exactly ".onnx" (empty stem, a pathlib dotfile) keeps its full name. -/
theorem discover_voices_catalog (fs : List RelPath) :
    (_discover_piper_voices fs).length
        = (fs.filter (fun p => matchesOnnx p.name && decide (configOf p ∈ fs))).length
          + (fs.filter (fun p => matchesOnnx p.name && !decide (configOf p ∈ fs))).length ∧
      ((_discover_piper_voices fs).map PVoice.model_path).Pairwise pathLe ∧
      ∀ v ∈ _discover_piper_voices fs,
        v.model_path ∈ fs ∧ matchesOnnx v.model_path.name = true ∧
        v.config_path = configOf v.model_path ∧
        (v.ready = true ↔ configOf v.model_path ∈ fs) ∧
        v.id = ⟨v.model_path.dirs,
          if v.model_path.name = ".onnx".data then v.model_path.name
          else v.model_path.name.take (v.model_path.name.length - 5)⟩ := by
  refine ⟨?_, ?_, ?_⟩
  · rw [_discover_piper_voices, List.length_map,
      (List.perm_insertionSort pathLe _).length_eq]
    exact filter_length_split fs _ _
  · have hs := List.sorted_insertionSort pathLe (fs.filter (fun p => matchesOnnx p.name))
    rw [_discover_piper_voices]
    exact List.Pairwise.map _ (fun a b h => h)
      (List.Pairwise.map _ (fun a b h => h) hs)
  · intro v hv
    simp only [_discover_piper_voices, List.mem_map] at hv
    obtain ⟨p, hp, rfl⟩ := hv
    have hpf : p ∈ fs.filter (fun q => matchesOnnx q.name) :=
      ((List.perm_insertionSort pathLe _).mem_iff).mp hp
    have hmem : p ∈ fs := (List.mem_filter.mp hpf).1
    have hm : matchesOnnx p.name = true := (List.mem_filter.mp hpf).2
    refine ⟨hmem, hm, rfl, ?_, ?_⟩
    · simp [hmem]
    · show (⟨p.dirs, withSuffixEmpty p.name⟩ : RelPath)
        = ⟨p.dirs, if p.name = ".onnx".data then p.name
            else p.name.take (p.name.length - 5)⟩
      rw [withSuffixEmpty_onnx p.name hm]

/-- C3 counterexample: a model file named exactly ".onnx" is discovered
(fnmatch matches dotfiles) but keeps id ".onnx": pathlib treats the
leading-dot name as suffix-less, so the artifact extension is not
stripped as the claim requires. -/
theorem discover_dotfile_id_unstripped :
    (_discover_piper_voices [⟨[], ".onnx".data⟩]).map PVoice.id
        = [⟨[], ".onnx".data⟩] ∧
      (⟨[], ".onnx".data⟩ : RelPath)
        ≠ ⟨[], (".onnx".data).take ((".onnx".data).length - 5)⟩ := by
  constructor
  · decide
  · decide

/-- A two-voice sample tree: a matched pair and an unmatched model. -/
def sampleFs : List RelPath :=
  [⟨[], "a.onnx".data⟩, ⟨[], "a.onnx.json".data⟩, ⟨[], "b.onnx".data⟩]

/-- The descriptor discovered for "a.onnx" in `sampleFs`. -/
def sampleVoiceA : PVoice :=
  ⟨⟨[], "a".data⟩, ⟨[], "a.onnx".data⟩, ⟨[], "a.onnx.json".data⟩, true⟩

/-- Witness for C3 on `sampleFs`. -/
theorem discover_voices_catalog_witness :
    (_discover_piper_voices sampleFs).length
        = (sampleFs.filter
            (fun p => matchesOnnx p.name && decide (configOf p ∈ sampleFs))).length
          + (sampleFs.filter
            (fun p => matchesOnnx p.name && !decide (configOf p ∈ sampleFs))).length ∧
      (sampleVoiceA.ready = true ↔ configOf sampleVoiceA.model_path ∈ sampleFs) ∧
      sampleVoiceA.id = ⟨sampleVoiceA.model_path.dirs,
        if sampleVoiceA.model_path.name = ".onnx".data then sampleVoiceA.model_path.name
        else sampleVoiceA.model_path.name.take (sampleVoiceA.model_path.name.length - 5)⟩ :=
  ⟨(discover_voices_catalog sampleFs).1,
   ((discover_voices_catalog sampleFs).2.2 sampleVoiceA (by decide)).2.2.2.1,
   ((discover_voices_catalog sampleFs).2.2 sampleVoiceA (by decide)).2.2.2.2⟩

/-! ## Health aggregation (`app.py`, `health_check`)

The live probes (`shutil.which`/`Path.exists` on binaries and
artifacts, the hardware info, the download status snapshot read under
the lock, and the discovered voices) are the inputs. -/

/-- The live state `health_check` reads. -/
structure HealthProbe where
  piper_bin_exists : Bool
  piper_model_exists : Bool
  piper_config_exists : Bool
  espeak_bin_exists : Bool
  hardware : HardwareSnapshot
  download : DefaultModelDownloadStatus
  piper_voices : List PVoice

/-- The `HealthResponse` body (engine/voice dicts flattened). -/
structure HealthResponse where
  status : String
  model_loaded : Bool
  hardware : HardwareSnapshot
  download : DefaultModelDownloadStatus
  piper_available : Bool
  piper_ready : Bool
  espeak_available : Bool
  espeak_ready : Bool
  piper_total : Nat
  piper_ready_count : Nat

/-- `health_check()`: `piper_ready` needs binary, model and config;
`espeak_ready` needs only the binary; overall status is "healthy" iff
either engine is ready; `model_loaded` mirrors `piper_ready`. -/
def health_check (pr : HealthProbe) : HealthResponse :=
  let piper_ready := pr.piper_bin_exists && pr.piper_model_exists && pr.piper_config_exists
  let espeak_ready := pr.espeak_bin_exists
  let overall_ok := piper_ready || espeak_ready
  { status := if overall_ok then "healthy" else "degraded",
    model_loaded := piper_ready,
    hardware := pr.hardware,
    download := pr.download,
    piper_available := pr.piper_bin_exists,
    piper_ready := piper_ready,
    espeak_available := pr.espeak_bin_exists,
    espeak_ready := espeak_ready,
    piper_total := pr.piper_voices.length,
    piper_ready_count := (pr.piper_voices.filter (fun v => v.ready)).length }

/-- C8: the health view is "healthy" iff at least one engine is fully
ready (neural: binary + model + config; classic: binary), "degraded"
otherwise, and `model_loaded` holds exactly when the neural engine is
fully ready. -/
theorem health_status_iff (pr : HealthProbe) :
    ((health_check pr).status = "healthy" ↔
        ((pr.piper_bin_exists && pr.piper_model_exists && pr.piper_config_exists) = true
          ∨ pr.espeak_bin_exists = true)) ∧
      ((health_check pr).status = "degraded" ↔
        ¬ ((pr.piper_bin_exists && pr.piper_model_exists && pr.piper_config_exists) = true
          ∨ pr.espeak_bin_exists = true)) ∧
      ((health_check pr).model_loaded = true ↔
        (pr.piper_bin_exists && pr.piper_model_exists && pr.piper_config_exists) = true) := by
  rcases pr with ⟨pb, pm, pc, eb, hw, dl, vs⟩
  cases pb <;> cases pm <;> cases pc <;> cases eb <;>
    simp [health_check]

/-! ## Synthesis dispatch (`app.py`, `SynthesizeRequest` and `synthesize`)

The two engine subprocesses become runner functions (text in, raw
bytes or a failure out); `Path.exists` on resolved artifacts becomes a
predicate parameter.  HTTP outcomes are WAV bodies or status + detail. -/

/-- The request body of `POST /synthesize`. -/
structure SynthesizeRequest where
  text : String
  speaker : Option Int
  engine : Option String
  voice : Option String
  language : Option String

/-- Outcome of a `subprocess.run` call: stdout on success, or a
timeout, or a non-zero exit with captured stderr. -/
inductive SubprocResult where
  | ok (stdout : List Nat)
  | timeout
  | fail (stderr : String)

/-- An HTTP outcome: a WAV body (200, audio/wav) or an error status
with detail. -/
inductive ApiResult where
  | wav (body : List Nat)
  | httpError (status : Nat) (detail : String)
deriving DecidableEq

/-- `prefixMatch needle hay`: `hay` starts with `needle`. -/
def prefixMatch : List Char → List Char → Bool
  | [], _ => true
  | _ :: _, [] => false
  | a :: as, b :: bs => (a == b) && prefixMatch as bs

/-- Python `needle in hay` substring containment. -/
def containsSubstr (needle : List Char) : List Char → Bool
  | [] => prefixMatch needle []
  | b :: bs => prefixMatch needle (b :: bs) || containsSubstr needle bs

/-- The pydantic boundary for `SynthesizeRequest`: `text` carries
`min_length=1`, and `engine` must be the literal "piper" or "espeak";
violations are rejected by FastAPI with a 422 validation error before
the route body runs. -/
def validate_synthesize_request (r : SynthesizeRequest) :
    Except String SynthesizeRequest :=
  if r.text.length < 1 then
    Except.error "String should have at least 1 character"
  else
    match r.engine with
    | none => Except.ok r
    | some e =>
      if e = "piper" ∨ e = "espeak" then Except.ok r
      else Except.error "Input should be 'piper' or 'espeak'"

/-- The `synthesize` route body: engine defaults to "piper"; the
espeak path runs the classic engine (recognising "voice does not
exist" on its stderr, lower-cased); the piper path resolves the voice,
checks both artifacts exist, runs the engine on the request text and
prepends the WAV header to the raw PCM. -/
def synthesize (runEspeak : String → String → SubprocResult)
    (runPiper : String → String → Option Int → String → SubprocResult)
    (fileExists : String → Bool) (defaultModel defaultConfig : String)
    (catalog : List VoiceInfo) (req : SynthesizeRequest) : ApiResult :=
  let engine := req.engine.getD "piper"
  if engine = "espeak" then
    let lang := req.language.getD "en"
    match runEspeak lang req.text with
    | SubprocResult.ok wav_data => ApiResult.wav wav_data
    | SubprocResult.timeout => ApiResult.httpError 504 "TTS synthesis timed out"
    | SubprocResult.fail stderr =>
      if containsSubstr "voice does not exist".data (pyLower stderr).data then
        ApiResult.httpError 400 ("Unknown espeak-ng voice/language '" ++ lang
          ++ "'. List available codes inside the container with: espeak-ng --voices")
      else ApiResult.httpError 500 ("eSpeak synthesis failed: " ++ stderr)
  else
    match _resolve_piper_voice defaultModel defaultConfig catalog req.voice with
    | Except.error msg => ApiResult.httpError 404 msg
    | Except.ok (m, c) =>
      if !(fileExists m) || !(fileExists c) then
        ApiResult.httpError 503 ("Piper model not ready. Missing " ++ m ++ " or " ++ c)
      else
        match runPiper m c req.speaker req.text with
        | SubprocResult.ok pcm =>
          match _create_wav_header pcm.length 22050 16 1 with
          | some hd => ApiResult.wav (hd ++ pcm)
          | none => ApiResult.httpError 500 "Unexpected error: int too big to convert"
        | SubprocResult.timeout => ApiResult.httpError 504 "TTS synthesis timed out"
        | SubprocResult.fail stderr =>
          ApiResult.httpError 500 ("TTS synthesis failed: " ++ stderr)

/-- `POST /synthesize` end to end: the validation boundary runs first;
only a validated request reaches the route body. -/
def handle_synthesize (runEspeak : String → String → SubprocResult)
    (runPiper : String → String → Option Int → String → SubprocResult)
    (fileExists : String → Bool) (defaultModel defaultConfig : String)
    (catalog : List VoiceInfo) (req : SynthesizeRequest) : ApiResult :=
  match validate_synthesize_request req with
  | Except.error d => ApiResult.httpError 422 d
  | Except.ok r =>
    synthesize runEspeak runPiper fileExists defaultModel defaultConfig catalog r

/-- C9: a request with empty text is rejected at the validation
boundary with a 422 (non-2xx) validation error, and the outcome does
not depend on the engine runners, the filesystem or the catalog - no
engine subprocess is ever invoked on empty text. -/
theorem empty_text_rejected_before_engines
    (rE rE2 : String → String → SubprocResult)
    (rP rP2 : String → String → Option Int → String → SubprocResult)
    (fx fx2 : String → Bool) (dm dc dm2 dc2 : String)
    (cat cat2 : List VoiceInfo)
    (sp : Option Int) (eng voi lang : Option String) :
    handle_synthesize rE rP fx dm dc cat ⟨"", sp, eng, voi, lang⟩
        = ApiResult.httpError 422 "String should have at least 1 character" ∧
      handle_synthesize rE rP fx dm dc cat ⟨"", sp, eng, voi, lang⟩
        = handle_synthesize rE2 rP2 fx2 dm2 dc2 cat2 ⟨"", sp, eng, voi, lang⟩ ∧
      ¬ (200 ≤ 422 ∧ 422 < 300) :=
  ⟨rfl, rfl, by omega⟩
